import Mathlib

/-!
A verification development for the natural-language-command pipeline of the
nlp-test-toolkit repository: the command validator, the Playwright code
compiler, the LLM response parser, the adapter configuration checks, the
adapter factory's fallback selection, the token-budgeted conversation
windower, and the chat route's questionnaire handling.

Conventions of the embedding:
* TypeScript optional string fields become `Option String`; JavaScript
  truthiness of such a field (`!cmd.value`) is the `truthy` predicate below
  (absent and the empty string are falsy).
* Fallible code returns `Except`; a thrown `Error` is the `.error` case.
* External collaborators (the JSON library's `JSON.parse`, the tokenizer,
  `JSON.stringify`) are universally-quantified function parameters: the
  theorems hold for every behaviour of the collaborator.
* Numbers that the source treats as JSON numbers (confidence) are `ℚ`;
  token counts are `Nat`, budgets are `Int` (they can go negative in the
  source's arithmetic).
-/

/-- JavaScript truthiness of an optional string field: `undefined` and the
empty string are falsy, any other string is truthy. -/
def truthy : Option String → Bool
  | none => false
  | some s => s ≠ ""

/-- A structured browser command, `PlaywrightCommand` of shared/types:
`\x7btype, selector?, value?, description?\x7d`. The `type` is an open string:
the parser accepts whatever the model emitted and the compiler degrades
unknown types to a comment. -/
structure PlaywrightCommand where
  type : String
  selector : Option String := none
  value : Option String := none
  description : Option String := none
deriving DecidableEq, Repr

/-- One command's checks inside `NLPParser.validateCommands` (parser.ts
197-212), in source order: navigate needs a value; click/fill/type/select/
hover need a selector; fill/type/select need a value. No check mentions
wait, press, assert or screenshot. -/
def validateCommand (c : PlaywrightCommand) : Except String Unit :=
  if c.type = "navigate" ∧ truthy c.value = false then
    .error "Navigate command requires a URL value"
  else if c.type ∈ ["click", "fill", "type", "select", "hover"] ∧ truthy c.selector = false then
    .error (c.type ++ " command requires a selector")
  else if c.type ∈ ["fill", "type", "select"] ∧ truthy c.value = false then
    .error (c.type ++ " command requires a value")
  else
    .ok ()

/-- `NLPParser.validateCommands`: the for-loop over the list, throwing at the
first violating command. -/
def validateCommands : List PlaywrightCommand → Except String Unit
  | [] => .ok ()
  | c :: rest =>
    match validateCommand c with
    | .ok () => validateCommands rest
    | .error e => .error e

/-- A clarification questionnaire as the downstream code consumes it: the
chat route reads only `message` and forwards the rest verbatim. -/
structure Questionnaire where
  message : String
  questions : List String
deriving DecidableEq, Repr

/-- `ParseResult` of shared/types, the unit of adapter output. -/
structure ParseResult where
  commands : List PlaywrightCommand
  confidence : ℚ
  questionnaire : Option Questionnaire := none
  rawResponse : String
deriving DecidableEq, Repr

/-- The tail of `NLPParser.parse` (parser.ts 56-63): validate the adapter
result's commands, then return the result unchanged; a validation error
propagates. -/
def nlpParseValidate (r : ParseResult) : Except String ParseResult :=
  match validateCommands r.commands with
  | .ok () => .ok r
  | .error e => .error e

example : validateCommands [{ type := "press" }] = .ok () := by rfl
example : validateCommands [{ type := "navigate" }] =
    .error "Navigate command requires a URL value" := by rfl
example : validateCommands [{ type := "click", selector := some "" }] =
    .error "click command requires a selector" := by rfl

/-! ## The Playwright code compiler (`NLPParser.commandToCode`,
`NLPParser.generatePlaywrightCode`, parser.ts 96-192) -/

/-- JavaScript template interpolation of a possibly-undefined string field:
`$\x7bcmd.value\x7d` renders `undefined` when the field is absent. -/
def jsShow : Option String → String
  | some s => s
  | none => "undefined"

/-- Leading decimal digits as a number, `none` when the first character is
not a digit (the NaN case of `parseInt`). -/
def digitsNat (l : List Char) : Option Nat :=
  let ds := l.takeWhile Char.isDigit
  if ds = [] then none
  else some (ds.foldl (fun acc ch => acc * 10 + (ch.toNat - 48)) 0)

/-- JavaScript `parseInt(s)` (radix 10 shape): skip leading whitespace, an
optional sign, then leading digits; `none` is `NaN`. -/
def parseIntJS (s : String) : Option Int :=
  match s.data.dropWhile (fun ch => ch = ' ' ∨ ch = '\t' ∨ ch = '\n' ∨ ch = '\r') with
  | '-' :: rest => (digitsNat rest).map (fun n => -(n : Int))
  | '+' :: rest => (digitsNat rest).map (fun n => (n : Int))
  | rest => (digitsNat rest).map (fun n => (n : Int))

/-- The rendering of `parseInt(cmd.value) * 1000` in the wait template:
a number interpolates as its decimal form, `NaN` as the text `NaN`. -/
def waitMs (v : String) : String :=
  match parseIntJS v with
  | some n => toString (n * 1000)
  | none => "NaN"

/-- The `// description` comment line `commandToCode` puts before the
action when `cmd.description` is present. -/
def descriptionComment (cmd : PlaywrightCommand) : String :=
  match cmd.description with
  | some d => "  // " ++ d ++ "\n"
  | none => ""

/-- The switch of `NLPParser.commandToCode` (parser.ts 135-188): one fixed
code template per known type, a comment line for the default case. -/
def actionSnippet (cmd : PlaywrightCommand) : String :=
  if cmd.type = "navigate" then
    "  await page.goto('" ++ jsShow cmd.value ++ "');\n"
  else if cmd.type = "click" then
    "  await page.click('" ++ jsShow cmd.selector ++ "');\n"
  else if cmd.type = "type" ∨ cmd.type = "fill" then
    "  await page.fill('" ++ jsShow cmd.selector ++ "', '" ++ jsShow cmd.value ++ "');\n"
  else if cmd.type = "assert" then
    if truthy cmd.selector then
      "  await expect(page.locator('" ++ jsShow cmd.selector ++ "')).toContainText('" ++
        jsShow cmd.value ++ "');\n"
    else
      "  await expect(page).toHaveURL('" ++ jsShow cmd.value ++ "');\n"
  else if cmd.type = "wait" then
    if truthy cmd.selector then
      "  await page.waitForSelector('" ++ jsShow cmd.selector ++ "');\n"
    else if truthy cmd.value then
      "  await page.waitForTimeout(" ++ waitMs (jsShow cmd.value) ++ ");\n"
    else
      ""
  else if cmd.type = "screenshot" then
    if truthy cmd.selector then
      "  await page.locator('" ++ jsShow cmd.selector ++
        "').screenshot(\x7b path: 'screenshot.png' \x7d);\n"
    else
      "  await page.screenshot(\x7b path: 'screenshot.png' \x7d);\n"
  else if cmd.type = "select" then
    "  await page.selectOption('" ++ jsShow cmd.selector ++ "', '" ++ jsShow cmd.value ++ "');\n"
  else if cmd.type = "hover" then
    "  await page.hover('" ++ jsShow cmd.selector ++ "');\n"
  else if cmd.type = "press" then
    "  await page.keyboard.press('" ++ jsShow cmd.value ++ "');\n"
  else
    "  // Unknown command type: " ++ cmd.type ++ "\n"

/-- `NLPParser.commandToCode`: optional description comment, the switch's
snippet, then the blank line the method always appends. There is no throw
in the source: the function is total. -/
def commandToCode (cmd : PlaywrightCommand) : String :=
  descriptionComment cmd ++ actionSnippet cmd ++ "\n"

/-- The `options` argument of `generatePlaywrightCode`. -/
structure GenerateOptions where
  testName : Option String := none
  imports : Option Bool := none
deriving DecidableEq, Repr

/-- `NLPParser.generatePlaywrightCode` (parser.ts 96-121): optional import
header, the test wrapper, and each command's code in order. -/
def generatePlaywrightCode (commands : List PlaywrightCommand) (options : GenerateOptions) : String :=
  let testName := options.testName.getD "Generated Test"
  let includeImports := options.imports ≠ some false
  (if includeImports then "import \x7b test, expect \x7d from '@playwright/test';\n\n" else "")
    ++ "test('" ++ testName ++ "', async (\x7b page \x7d) => \x7b\n"
    ++ String.join (commands.map commandToCode)
    ++ "\x7d);\n"

/-- The ten command types the compiler's switch maps to a template. -/
def knownCommandTypes : List String :=
  ["navigate", "click", "type", "fill", "assert", "wait", "screenshot", "select", "hover", "press"]

example : commandToCode { type := "frobnicate", description := some "do it" } =
    "  // do it\n  // Unknown command type: frobnicate\n\n" := by rfl
example : commandToCode { type := "wait", value := some "2" } =
    "  await page.waitForTimeout(2000);\n\n" := by rfl
example : commandToCode { type := "wait", value := some "soon" } =
    "  await page.waitForTimeout(NaN);\n\n" := by rfl
example : generatePlaywrightCode [] { testName := some "Generated Test", imports := some true } =
    "import \x7b test, expect \x7d from '@playwright/test';\n\ntest('Generated Test', async (\x7b page \x7d) => \x7b\n\x7d);\n" := by rfl

/-! ## The response parser (`BaseLLMAdapter.parseResponse`, base.ts 114-190)

`JSON.parse` is an external library call; it is a parameter
`jsonParse : String → Option LLMJson` of the embedding (`none` = throws),
and the theorems quantify over it. The fenced-code-block extraction
(`rawResponse.match(/` ```json\n([\s\S]*?)\n``` `/)` with the untagged
alternative) is modelled exactly: leftmost opener, then the shortest
(lazy) interior up to the first `\n` + three backticks. -/

/-- The well-typed shape of a parsed model response, as far as
`parseResponse` and the chat route read it: the `commands`, `confidence`,
`questionnaire` and `error` keys (`none` = key absent or null). -/
structure LLMJson where
  commands : Option (List PlaywrightCommand) := none
  confidence : Option ℚ := none
  questionnaire : Option Questionnaire := none
  errorMsg : Option String := none
deriving DecidableEq, Repr

/-- Boolean list-prefix test on characters. -/
def listPrefix : List Char → List Char → Bool
  | [], _ => true
  | _ :: _, [] => false
  | a :: as, b :: bs => a = b && listPrefix as bs

/-- Split a character list around the leftmost occurrence of `pat`:
`some (before, after)` with the occurrence removed, `none` when `pat` does
not occur. -/
def splitFirst (pat : List Char) : List Char → Option (List Char × List Char)
  | [] => if listPrefix pat [] then some ([], []) else none
  | c :: rest =>
    if listPrefix pat (c :: rest) then some ([], (c :: rest).drop pat.length)
    else
      match splitFirst pat rest with
      | some (pre, post) => some (c :: pre, post)
      | none => none

/-- Whether `pat` occurs contiguously in `s`. -/
def containsSub (pat s : List Char) : Bool := (splitFirst pat s).isSome

/-- Three backticks. -/
def tripleBacktick : List Char := "```".data

/-- The tagged fence opener of strategy 1. -/
def fenceJsonOpen : List Char := "```json\n".data

/-- The untagged fence opener of strategy 1's alternative. -/
def fencePlainOpen : List Char := "```\n".data

/-- The fence closer (a newline then three backticks). -/
def fenceClose : List Char := "\n```".data

/-- The capture group of one fence regex: text from after the leftmost
opener up to the first closer after it. -/
def fenceCapture (opener s : List Char) : Option (List Char) :=
  match splitFirst opener s with
  | some (_, rest) =>
    match splitFirst fenceClose rest with
    | some (inner, _) => some inner
    | none => none
  | none => none

/-- Strategy 1 of `parseResponse`: the `json`-tagged fence first, then the
untagged fence. -/
def jsMatchFence (s : List Char) : Option (List Char) :=
  match fenceCapture fenceJsonOpen s with
  | some inner => some inner
  | none => fenceCapture fencePlainOpen s

/-- A model response wrapped in a ```json fenced code block. -/
def wrapJsonBlock (J : String) : String :=
  String.mk (fenceJsonOpen ++ J.data ++ fenceClose)

/-- The result-building common to both parse branches (base.ts 145-150 and
179-184): `commands: parsed.commands || []`, `confidence:
parsed.confidence || 0.8`, `questionnaire: parsed.questionnaire`. The `||`
operator substitutes the default for every falsy left operand: an absent
key, but also an explicit confidence of 0. A present array is truthy even
when empty, so an explicit `[]` is kept. -/
def buildParseResult (parsed : LLMJson) (raw : String) : ParseResult :=
  { commands := parsed.commands.getD []
    confidence :=
      match parsed.confidence with
      | some c => if c = 0 then 0.8 else c
      | none => 0.8
    questionnaire := parsed.questionnaire
    rawResponse := raw }

/-- The error thrown when neither extraction strategy yields parseable
JSON; the thrown message embeds the raw response text
(`...\nRaw response: $\x7brawResponse\x7d`). -/
structure ResponseParseError where
  rawResponse : String
deriving DecidableEq, Repr

/-- `BaseLLMAdapter.parseResponse`: extract a fenced block and parse its
interior, else parse the whole text; a `JSON.parse` throw in either branch
is caught and rethrown with the raw text attached. -/
def parseResponse (jsonParse : String → Option LLMJson) (raw : String) :
    Except ResponseParseError ParseResult :=
  match jsMatchFence raw.data with
  | some inner =>
    match jsonParse (String.mk inner) with
    | some parsed => .ok (buildParseResult parsed raw)
    | none => .error ⟨raw⟩
  | none =>
    match jsonParse raw with
    | some parsed => .ok (buildParseResult parsed raw)
    | none => .error ⟨raw⟩

/-- Agreement of two parser outcomes on everything except the verbatim
`rawResponse` echo: same commands, confidence and questionnaire, or both a
parse error. -/
def sameParseOutcome :
    Except ResponseParseError ParseResult → Except ResponseParseError ParseResult → Prop
  | .ok a, .ok b =>
    a.commands = b.commands ∧ a.confidence = b.confidence ∧ a.questionnaire = b.questionnaire
  | .error _, .error _ => True
  | _, _ => False

example : jsMatchFence (wrapJsonBlock "payload").data = some "payload".data := by decide
example : jsMatchFence "no fence here".data = none := by decide

/-! ## Provider adapters: configuration validation and message building -/

/-- The provider configuration fields the validation code reads
(`apiKey`, `model`, `endpoint`); `none` = key absent. -/
structure ProviderConfig where
  apiKey : Option String := none
  model : Option String := none
  endpoint : Option String := none
deriving DecidableEq, Repr

/-- `OpenAIAdapter.validateConfig`: `Boolean(config.apiKey && config.model)`.
`GeminiAdapter`, `GLMAdapter` and `OpenRouterAdapter` have the same body. -/
def openAIValidateConfig (c : ProviderConfig) : Bool :=
  truthy c.apiKey && truthy c.model

/-- `AgentRouterAdapter.validateConfig`:
`Boolean(config.apiKey && config.endpoint)` — the endpoint, not the model. -/
def agentRouterValidateConfig (c : ProviderConfig) : Bool :=
  truthy c.apiKey && truthy c.endpoint

/-- `BaseLLMAdapter`'s constructor (base.ts 19-24): store the config, then
throw `Invalid configuration for adapter` when the subclass's
`validateConfig` rejects it. An adapter value exists only past this check. -/
def mkAdapter (validate : ProviderConfig → Bool) (c : ProviderConfig) :
    Except String ProviderConfig :=
  if validate c then .ok c else .error "Invalid configuration for adapter"

/-- One `\x7brole, content\x7d` turn of the message sequence sent to a
completion service. -/
structure ChatTurn where
  role : String
  content : String
deriving DecidableEq, Repr

/-- The per-request context fields the adapters' message building reads. -/
structure ParseContext where
  previousCommands : List PlaywrightCommand := []
  conversationHistory : List ChatTurn := []
deriving DecidableEq, Repr

/-- The fixed system prompt `BaseLLMAdapter.buildSystemPrompt` returns
(base.ts 55-106); its text is opaque to every claim, only its position in
the message sequence matters. -/
def buildSystemPromptText : String :=
  String.intercalate "\n"
    [ "Expert Playwright test generator. Output valid JSON only."
    , ""
    , "TWO TYPES OF RESPONSES:"
    , ""
    , "1. VAGUE REQUEST → Return questionnaire:"
    , "\x7b"
    , "  \"commands\": [],"
    , "  \"confidence\": 0.1-0.3,"
    , "  \"questionnaire\": \x7b"
    , "    \"message\": \"Brief explanation\","
    , "    \"questions\": [\x7b"
    , "      \"id\": \"unique-id\","
    , "      \"text\": \"Question?\","
    , "      \"type\": \"single-choice|multi-choice|text-input\","
    , "      \"required\": true|false,"
    , "      \"options\": [\x7b\"value\": \"...\", \"label\": \"...\"\x7d],"
    , "      \"placeholder\": \"...\","
    , "      \"multiline\": true|false"
    , "    \x7d]"
    , "  \x7d"
    , "\x7d"
    , ""
    , "2. CLEAR REQUEST → Return commands:"
    , "\x7b"
    , "  \"commands\": [\x7b\"type\": \"navigate|click|fill|assert|wait|screenshot|press\", \"selector\": \"...\", \"value\": \"...\", \"description\": \"...\"\x7d],"
    , "  \"confidence\": 0.7-1.0"
    , "\x7d"
    , ""
    , "QUESTION TYPES:"
    , "- single-choice: Radio (one option). Example: login type"
    , "- multi-choice: Checkboxes (many options). Example: SEO checks  "
    , "- text-input: Text field. Set multiline:true for textarea"
    , ""
    , "COMMON QUESTIONNAIRES:"
    , "- \"test login\" → login URL (text), login type (single), scenarios (multi), credentials (text)"
    , "- \"test SEO\" → URL (text), SEO checks (multi)"
    , "- \"test search\" → queries (text multiline), verifications (multi)"
    , ""
    , "COMMANDS:"
    , "- navigate: Go to URL"
    , "- click: Click element (needs selector)"
    , "- fill: Fill input (needs selector + value)"
    , "- assert: Verify text/visibility (needs selector + value)"
    , "- wait: Wait for element or duration"
    , "- screenshot: Capture screen"
    , ""
    , "SELECTORS: Use data-testid > aria-label > id > text > CSS"
    , ""
    , "CRITICAL: Always return valid, complete JSON. Never return \x7b\x7d."
    , "" ]

/-- `AgentRouterAdapter.parse`'s message building (agentrouter.adapter.ts
45-64): `[system, user]`, and when `context.previousCommands` is non-empty
a synthetic assistant turn serializing them is spliced in at index 1 —
after the system message, before the user turn. `stringify` stands for the
external `JSON.stringify(·, null, 2)`. `GLMAdapter.parse` builds the same
sequence. -/
def agentRouterMessages (stringify : List PlaywrightCommand → String)
    (input : String) (context : Option ParseContext) : List ChatTurn :=
  let prev := (context.map (·.previousCommands)).getD []
  if prev.isEmpty then
    [⟨"system", buildSystemPromptText⟩, ⟨"user", input⟩]
  else
    [⟨"system", buildSystemPromptText⟩,
     ⟨"assistant", "Previous commands executed:\n" ++ stringify prev⟩,
     ⟨"user", input⟩]

/-- `OpenAIAdapter.parse`'s message building (openai.adapter.ts 41-62):
system message, the conversation history when non-empty, then the user
turn. Nothing in this method reads `context.previousCommands`.
`OpenRouterAdapter.parse` builds the same sequence. -/
def openAIMessages (input : String) (context : Option ParseContext) : List ChatTurn :=
  let hist := (context.map (·.conversationHistory)).getD []
  if hist.isEmpty then
    [⟨"system", buildSystemPromptText⟩, ⟨"user", input⟩]
  else
    ⟨"system", buildSystemPromptText⟩ :: hist ++ [⟨"user", input⟩]

/-! ## The adapter factory's fallback selection
(`AdapterFactory.getPrimaryAdapter`, factory.ts 45-82) -/

/-- One fallback provider as the selection loop observes it: its name and
what `getAdapter` + `healthCheck` yield for it — `some b` a health result,
`none` a throw (unregistered adapter, or a health check that threw),
which the loop's try/catch absorbs. -/
structure FallbackProbe where
  name : String
  health : Option Bool
deriving DecidableEq, Repr

/-- Which adapter `getPrimaryAdapter` resolved to. -/
inductive SelectedAdapter where
  | primary
  | fallback (name : String)
deriving DecidableEq, Repr

/-- The fallback loop: first fallback whose health check returns true;
when none does, the primary is returned anyway. -/
def tryFallbacks : List FallbackProbe → SelectedAdapter
  | [] => .primary
  | f :: rest => if f.health = some true then .fallback f.name else tryFallbacks rest

/-- `AdapterFactory.getPrimaryAdapter`: health-check the primary and return
it when healthy; otherwise walk the configured fallbacks in declared
order. -/
def getPrimaryAdapter (primaryHealthy : Bool) (fallbacks : List FallbackProbe) :
    SelectedAdapter :=
  if primaryHealthy then .primary else tryFallbacks fallbacks

example : getPrimaryAdapter false [⟨"gemini", some false⟩, ⟨"glm", some true⟩] =
    .fallback "glm" := by rfl
example : getPrimaryAdapter false [⟨"gemini", some false⟩, ⟨"glm", none⟩] =
    .primary := by rfl

/-! ## The conversation context windower
(`ChatService.getMessagesWithinBudget`, `countMessageTokens`)

`countTokens` delegates to the external tokenizer (tiktoken, with a
`ceil(length/4)` fallback); it is the parameter `tok` and the theorems
hold for every tokenizer. The budget is an `Int`: the source computes it
by subtraction and it can be negative. -/

/-- One stored chat message as the windower reads it. -/
structure ChatMsg where
  role : String
  content : String
deriving DecidableEq, Repr

/-- `ChatService.countMessageTokens`: content tokens plus the fixed 4-token
per-message formatting overhead. -/
def countMessageTokens (tok : String → Nat) (content : String) : Nat :=
  tok content + 4

/-- Total windower token cost of a message list. -/
def windowTokenSum (tok : String → Nat) (msgs : List ChatMsg) : Nat :=
  (msgs.map fun m => countMessageTokens tok m.content).sum

/-- The selection loop of `getMessagesWithinBudget` on the newest-first
view: accept while the running total stays within budget, `break` at the
first message that does not fit (dropping it and everything older). -/
def selectNewest (tok : String → Nat) (budget : Int) : Nat → List ChatMsg → List ChatMsg
  | _, [] => []
  | used, m :: older =>
    if ((used + countMessageTokens tok m.content : Nat) : Int) ≤ budget then
      m :: selectNewest tok budget (used + countMessageTokens tok m.content) older
    else []

/-- `ChatService.getMessagesWithinBudget` on a chronological (oldest-first)
message list: walk newest→oldest accumulating token costs, then restore
chronological order (the loop `unshift`s into `selected`). -/
def getMessagesWithinBudget (tok : String → Nat) (budget : Int)
    (msgs : List ChatMsg) : List ChatMsg :=
  (selectNewest tok budget 0 msgs.reverse).reverse

example :
    getMessagesWithinBudget (fun s => s.length) 10
      [⟨"user", "0123456789"⟩, ⟨"assistant", "ab"⟩] = [⟨"assistant", "ab"⟩] := by rfl
example :
    getMessagesWithinBudget (fun s => s.length) 20
      [⟨"user", "0123456789"⟩, ⟨"assistant", "ab"⟩] =
      [⟨"user", "0123456789"⟩, ⟨"assistant", "ab"⟩] := by rfl

/-! ## The chat route's questionnaire handling
(api/chat/index.ts, both variants of `router.post('/')`)

Differences the embedding keeps: in the first variant the structured-
questionnaire check sits INSIDE `if (parsedResponse?.error)`; in the
second it is unconditional and comes first. In both variants
`JSON.parse(result.rawResponse)` runs before any check (when `rawResponse`
is non-empty) and a throw there is caught by the route's catch-all
(`.serverError` below). The legacy markdown clarification body is opaque
to the claims and is not reproduced. -/

/-- What the route replies with. -/
inductive ChatOutcome where
  /-- The structured questionnaire is returned to the caller
  (`content = questionnaire.message`, commands empty). -/
  | questionnaireReply (content : String) (q : Questionnaire)
  /-- The legacy markdown clarification fallback (commands empty). -/
  | clarificationReply
  /-- The success path: the compiled Playwright script is returned. -/
  | successReply (generatedCode : String)
  /-- The catch-all 500 response. -/
  | serverError
deriving DecidableEq, Repr

/-- The success path shared by both variants: compile the result's
commands with `\x7b testName: 'Generated Test', imports: true \x7d`. -/
def chatSuccessPath (result : ParseResult) : ChatOutcome :=
  .successReply
    (generatePlaywrightCode result.commands
      { testName := some "Generated Test", imports := some true })

/-- The first chat-route variant (api/chat/index.ts 76-210): both
questionnaire checks are nested under `if (parsedResponse?.error)`, so a
result whose raw response has no truthy `error` key goes straight to the
success-path compile. -/
def chatRouteV1 (jsonParse : String → Option LLMJson) (result : ParseResult) : ChatOutcome :=
  if result.rawResponse = "" then
    chatSuccessPath result
  else
    match jsonParse result.rawResponse with
    | none => .serverError
    | some parsed =>
      if truthy parsed.errorMsg then
        match result.questionnaire with
        | some q =>
          if result.commands.isEmpty then .questionnaireReply q.message q
          else chatSuccessPath result
        | none =>
          if result.commands.isEmpty then .clarificationReply
          else chatSuccessPath result
      else chatSuccessPath result

/-- The second chat-route variant (api/chat/index.ts 294-432): the
structured-questionnaire check comes first and unconditionally, then the
legacy error fallback, then the success path. -/
def chatRouteV2 (jsonParse : String → Option LLMJson) (result : ParseResult) : ChatOutcome :=
  let afterParse : Option LLMJson → ChatOutcome := fun parsed? =>
    match result.questionnaire with
    | some q =>
      if result.commands.isEmpty then .questionnaireReply q.message q
      else
        if ((parsed?.map fun p => truthy p.errorMsg).getD false) && result.commands.isEmpty then
          .clarificationReply
        else chatSuccessPath result
    | none =>
      if ((parsed?.map fun p => truthy p.errorMsg).getD false) && result.commands.isEmpty then
        .clarificationReply
      else chatSuccessPath result
  if result.rawResponse = "" then
    afterParse none
  else
    match jsonParse result.rawResponse with
    | none => .serverError
    | some parsed => afterParse (some parsed)

/-! ## C2 — validator characterization -/

/-- The required-field contract `validateCommands` actually enforces:
navigate needs a value; click, fill, type, select and hover need a
selector; fill, type and select need a value. (Unlike the spec's §4.4
table, nothing is required of wait, press, assert or screenshot.) -/
def requiredFieldsPresent (c : PlaywrightCommand) : Prop :=
  (c.type = "navigate" → truthy c.value = true)
  ∧ (c.type ∈ ["click", "fill", "type", "select", "hover"] → truthy c.selector = true)
  ∧ (c.type ∈ ["fill", "type", "select"] → truthy c.value = true)

theorem validateCommand_ok_iff (c : PlaywrightCommand) :
    validateCommand c = .ok () ↔ requiredFieldsPresent c := by
  unfold validateCommand requiredFieldsPresent
  split_ifs with h1 h2 h3
  · refine iff_of_false (by simp) ?_
    rintro ⟨p1, -, -⟩
    exact absurd (h1.2 ▸ p1 h1.1) (by simp)
  · refine iff_of_false (by simp) ?_
    rintro ⟨-, p2, -⟩
    exact absurd (h2.2 ▸ p2 h2.1) (by simp)
  · refine iff_of_false (by simp) ?_
    rintro ⟨-, -, p3⟩
    exact absurd (h3.2 ▸ p3 h3.1) (by simp)
  · refine iff_of_true rfl ⟨fun ht => ?_, fun ht => ?_, fun ht => ?_⟩
    · cases hb : truthy c.value
      · exact absurd ⟨ht, hb⟩ h1
      · rfl
    · cases hb : truthy c.selector
      · exact absurd ⟨ht, hb⟩ h2
      · rfl
    · cases hb : truthy c.value
      · exact absurd ⟨ht, hb⟩ h3
      · rfl

/-- C2 (amended). The validator accepts a command list exactly when every
command has the fields the code's three checks demand — navigate a value;
click/fill/type/select/hover a selector; fill/type/select also a value —
regardless of every other field; wait, press, assert, screenshot and
unknown types are always accepted. -/
theorem c2_validator_characterization (cs : List PlaywrightCommand) :
    validateCommands cs = .ok () ↔ ∀ c ∈ cs, requiredFieldsPresent c := by
  induction cs with
  | nil => simp [validateCommands]
  | cons c rest ih =>
    rw [List.forall_mem_cons, ← validateCommand_ok_iff]
    cases hv : validateCommand c with
    | ok u =>
      cases u
      simp [validateCommands, hv, ih]
    | error e =>
      refine iff_of_false ?_ ?_
      · simp [validateCommands, hv]
      · rintro ⟨hc, -⟩
        exact absurd hc (by simp)

/-- C2 (counterexample to the claim as stated): a press command with no
value and a wait command with neither selector nor value are both
accepted by `validateCommands`, although the claim's §4.4 table says they
must be rejected. -/
theorem c2_counterexample :
    validateCommands [{ type := "press" }, { type := "wait" }] = .ok () := by rfl

/-! ## C3 — parser pass-through and defaults -/

/-- C3 (amended). On parse success the questionnaire and a present
commands array (even an explicitly empty one) are passed through, an
absent commands key defaults to the empty list, an absent confidence
defaults to 0.8 — but so does an explicit confidence of 0, because the
source uses the falsy-or `parsed.confidence || 0.8`; every non-zero
explicit confidence is passed through. -/
theorem c3_parse_defaults (parsed : LLMJson) (raw : String) :
    (buildParseResult parsed raw).questionnaire = parsed.questionnaire
    ∧ (parsed.commands = none → (buildParseResult parsed raw).commands = [])
    ∧ (∀ l, parsed.commands = some l → (buildParseResult parsed raw).commands = l)
    ∧ (parsed.confidence = none → (buildParseResult parsed raw).confidence = 0.8)
    ∧ (parsed.confidence = some 0 → (buildParseResult parsed raw).confidence = 0.8)
    ∧ (∀ q, parsed.confidence = some q → q ≠ 0 →
        (buildParseResult parsed raw).confidence = q) := by
  refine ⟨rfl, fun h => ?_, fun l h => ?_, fun h => ?_, fun h => ?_, fun q h hq => ?_⟩
  · simp [buildParseResult, h]
  · simp [buildParseResult, h]
  · simp [buildParseResult, h]
  · simp [buildParseResult, h]
  · simp [buildParseResult, h, hq]

/-- The parsed JSON object `\x7b"commands": [], "confidence": 0\x7d`. -/
def explicitZeroConfidence : LLMJson :=
  { commands := some [], confidence := some 0 }

/-- C3 (counterexample to the claim as stated): an explicitly supplied
confidence of 0 is NOT passed through — the result carries the fabricated
default 0.8 instead (while the explicitly empty commands array is kept). -/
theorem c3_counterexample :
    (buildParseResult explicitZeroConfidence "raw-model-text").confidence = 0.8
    ∧ (0.8 : ℚ) ≠ 0
    ∧ (buildParseResult explicitZeroConfidence "raw-model-text").commands = [] := by
  refine ⟨by simp [buildParseResult, explicitZeroConfidence], by norm_num, rfl⟩

/-! ## C10 — the empty command list validates -/

/-- C10. `validateCommands` accepts the empty list (its loop body never
runs), so a `ParseResult` carrying zero commands passes through the
validation step of `NLPParser.parse` unmodified and without error. -/
theorem c10_empty_commands_pass (r : ParseResult) (h : r.commands = []) :
    nlpParseValidate r = .ok r := by
  simp [nlpParseValidate, h, validateCommands]

/-- A questionnaire-only parse result: zero commands. -/
def questionnaireOnlyResult : ParseResult :=
  { commands := []
    confidence := 0.2
    questionnaire := some ⟨"Which flow should the test cover?", ["login", "checkout"]⟩
    rawResponse := "raw-questionnaire-response" }

theorem c10_witness :
    nlpParseValidate questionnaireOnlyResult = .ok questionnaireOnlyResult :=
  c10_empty_commands_pass questionnaireOnlyResult rfl

/-! ## C4 — factory fallback selection -/

/-- C4. `getPrimaryAdapter` returns the primary immediately when its
health check passes; otherwise it returns the first fallback (in declared
order) whose probe yields a healthy result — a fallback that throws or is
unhealthy is skipped — and when no fallback qualifies it returns the
primary anyway, never an error value. -/
theorem c4_fallback_selection (primaryHealthy : Bool) (fallbacks : List FallbackProbe) :
    getPrimaryAdapter primaryHealthy fallbacks =
      if primaryHealthy then .primary
      else
        match fallbacks.find? (fun f => f.health == some true) with
        | some f => .fallback f.name
        | none => .primary := by
  unfold getPrimaryAdapter
  cases primaryHealthy with
  | true => simp
  | false =>
    simp only [Bool.false_eq_true, if_false]
    induction fallbacks with
    | nil => rfl
    | cons f rest ih =>
      by_cases h : f.health = some true
      · simp [tryFallbacks, List.find?_cons, h]
      · simp [tryFallbacks, List.find?_cons, h, ih]

/-! ## C8 — adapter configuration fail-fast -/

/-- C8 (amended). For OpenAI (and Gemini, GLM, OpenRouter, which share the
same body) an adapter instance exists iff apiKey AND model are present;
for AgentRouter iff apiKey AND ENDPOINT are present — its `validateConfig`
never looks at the model. For every adapter the base constructor throws
exactly when `validateConfig` rejects, so no half-configured instance
exists. -/
theorem mkAdapter_isOk (validate : ProviderConfig → Bool) (c : ProviderConfig) :
    (mkAdapter validate c).isOk = validate c := by
  unfold mkAdapter
  cases h : validate c <;> simp [h, Except.isOk, Except.toBool]

theorem c8_config_fail_fast (c : ProviderConfig) :
    ((mkAdapter openAIValidateConfig c).isOk = true ↔
      truthy c.apiKey = true ∧ truthy c.model = true)
    ∧ ((mkAdapter agentRouterValidateConfig c).isOk = true ↔
      truthy c.apiKey = true ∧ truthy c.endpoint = true)
    ∧ (∀ validate : ProviderConfig → Bool, validate c = false →
        mkAdapter validate c = .error "Invalid configuration for adapter")
    ∧ (∀ validate : ProviderConfig → Bool, validate c = true →
        mkAdapter validate c = .ok c) := by
  refine ⟨?_, ?_, fun validate h => ?_, fun validate h => ?_⟩
  · rw [mkAdapter_isOk, openAIValidateConfig]
    exact (Bool.and_eq_true _ _).to_iff
  · rw [mkAdapter_isOk, agentRouterValidateConfig]
    exact (Bool.and_eq_true _ _).to_iff
  · simp [mkAdapter, h]
  · simp [mkAdapter, h]

/-- An AgentRouter configuration with a credential and an endpoint but NO
model identifier. -/
def agentRouterConfigNoModel : ProviderConfig :=
  { apiKey := some "key-123", endpoint := some "https://agentrouter.org/v1" }

/-- C8 (counterexample to the claim as stated): the AgentRouter adapter's
`validateConfig` accepts a configuration whose model identifier is absent
(it checks the endpoint instead), and the constructor happily builds the
adapter — contradicting "true iff credential AND model identifier are
present". -/
theorem c8_counterexample :
    agentRouterValidateConfig agentRouterConfigNoModel = true
    ∧ agentRouterConfigNoModel.model = none
    ∧ (mkAdapter agentRouterValidateConfig agentRouterConfigNoModel).isOk = true :=
  ⟨rfl, rfl, rfl⟩

/-! ## C9 — compiler totality and degradation -/

/-- C9. `commandToCode` is a total function: every command yields a string
(the source's switch has no throw path). A command whose type is outside
the ten mapped types degrades to an emitted comment line; each mapped
type produces its one fixed code template, instantiated with the
command's fields (and preceded by the description comment when present). -/
theorem c9_compiler_totality (cmd : PlaywrightCommand) :
    (cmd.type ∉ knownCommandTypes →
      commandToCode cmd =
        descriptionComment cmd ++ ("  // Unknown command type: " ++ cmd.type ++ "\n") ++ "\n")
    ∧ (cmd.type = "navigate" → commandToCode cmd =
        descriptionComment cmd ++ ("  await page.goto('" ++ jsShow cmd.value ++ "');\n") ++ "\n")
    ∧ (cmd.type = "click" → commandToCode cmd =
        descriptionComment cmd ++ ("  await page.click('" ++ jsShow cmd.selector ++ "');\n") ++ "\n")
    ∧ (cmd.type = "type" ∨ cmd.type = "fill" → commandToCode cmd =
        descriptionComment cmd ++
          ("  await page.fill('" ++ jsShow cmd.selector ++ "', '" ++ jsShow cmd.value ++ "');\n")
          ++ "\n")
    ∧ (cmd.type = "assert" → truthy cmd.selector = true → commandToCode cmd =
        descriptionComment cmd ++
          ("  await expect(page.locator('" ++ jsShow cmd.selector ++ "')).toContainText('" ++
            jsShow cmd.value ++ "');\n") ++ "\n")
    ∧ (cmd.type = "assert" → truthy cmd.selector = false → commandToCode cmd =
        descriptionComment cmd ++
          ("  await expect(page).toHaveURL('" ++ jsShow cmd.value ++ "');\n") ++ "\n")
    ∧ (cmd.type = "wait" → truthy cmd.selector = true → commandToCode cmd =
        descriptionComment cmd ++
          ("  await page.waitForSelector('" ++ jsShow cmd.selector ++ "');\n") ++ "\n")
    ∧ (cmd.type = "wait" → truthy cmd.selector = false → truthy cmd.value = true →
        commandToCode cmd =
          descriptionComment cmd ++
            ("  await page.waitForTimeout(" ++ waitMs (jsShow cmd.value) ++ ");\n") ++ "\n")
    ∧ (cmd.type = "wait" → truthy cmd.selector = false → truthy cmd.value = false →
        commandToCode cmd = descriptionComment cmd ++ "" ++ "\n")
    ∧ (cmd.type = "screenshot" → truthy cmd.selector = true → commandToCode cmd =
        descriptionComment cmd ++
          ("  await page.locator('" ++ jsShow cmd.selector ++
            "').screenshot(\x7b path: 'screenshot.png' \x7d);\n") ++ "\n")
    ∧ (cmd.type = "screenshot" → truthy cmd.selector = false → commandToCode cmd =
        descriptionComment cmd ++
          ("  await page.screenshot(\x7b path: 'screenshot.png' \x7d);\n") ++ "\n")
    ∧ (cmd.type = "select" → commandToCode cmd =
        descriptionComment cmd ++
          ("  await page.selectOption('" ++ jsShow cmd.selector ++ "', '" ++
            jsShow cmd.value ++ "');\n") ++ "\n")
    ∧ (cmd.type = "hover" → commandToCode cmd =
        descriptionComment cmd ++ ("  await page.hover('" ++ jsShow cmd.selector ++ "');\n") ++ "\n")
    ∧ (cmd.type = "press" → commandToCode cmd =
        descriptionComment cmd ++
          ("  await page.keyboard.press('" ++ jsShow cmd.value ++ "');\n") ++ "\n") := by
  refine ⟨fun h => ?_, fun h => ?_, fun h => ?_, fun h => ?_, fun h hs => ?_, fun h hs => ?_,
    fun h hs => ?_, fun h hs hv => ?_, fun h hs hv => ?_, fun h hs => ?_, fun h hs => ?_,
    fun h => ?_, fun h => ?_, fun h => ?_⟩
  · simp only [knownCommandTypes, List.mem_cons, List.not_mem_nil, or_false, not_or] at h
    obtain ⟨h1, h2, h3, h4, h5, h6, h7, h8, h9, h10⟩ := h
    simp [commandToCode, actionSnippet, h1, h2, h3, h4, h5, h6, h7, h8, h9, h10]
  · simp [commandToCode, actionSnippet, h]
  · simp [commandToCode, actionSnippet, h]
  · rcases h with h | h <;> simp [commandToCode, actionSnippet, h]
  · simp [commandToCode, actionSnippet, h, hs]
  · simp [commandToCode, actionSnippet, h, hs]
  · simp [commandToCode, actionSnippet, h, hs]
  · simp [commandToCode, actionSnippet, h, hs, hv]
  · simp [commandToCode, actionSnippet, h, hs, hv]
  · simp [commandToCode, actionSnippet, h, hs]
  · simp [commandToCode, actionSnippet, h, hs]
  · simp [commandToCode, actionSnippet, h]
  · simp [commandToCode, actionSnippet, h]
  · simp [commandToCode, actionSnippet, h]

/-! ## C1 — questionnaire precedence in the chat route -/

/-- The questionnaire of the failing request. -/
def vagueQuestionnaire : Questionnaire :=
  ⟨"I need more details to generate reliable test commands.",
   ["Which page should the test start on?"]⟩

/-- A structured questionnaire response exactly as the system prompt's
response mode 1 requests it: empty commands, low confidence, a
questionnaire, and NO `error` key. -/
def questionnaireParseResult : ParseResult :=
  { commands := []
    confidence := 0.2
    questionnaire := some vagueQuestionnaire
    rawResponse := "raw-questionnaire-json" }

/-- `JSON.parse` on that raw response: a well-formed object carrying the
questionnaire and no `error` key. -/
def questionnaireJsonParse : String → Option LLMJson := fun s =>
  if s = "raw-questionnaire-json" then
    some { commands := some [], confidence := some 0.2,
           questionnaire := some vagueQuestionnaire }
  else none

/-- C1 (the code bug, evaluated): for a questionnaire result whose raw
response JSON has no `error` key, the first chat-route variant falls past
its nested questionnaire check and silently returns a compiled EMPTY
script as a success — exactly what the claim forbids — while the second
variant returns the questionnaire as required. -/
theorem c1_questionnaire_compiled_to_empty_script :
    chatRouteV1 questionnaireJsonParse questionnaireParseResult =
      .successReply
        "import \x7b test, expect \x7d from '@playwright/test';\n\ntest('Generated Test', async (\x7b page \x7d) => \x7b\n\x7d);\n"
    ∧ chatRouteV2 questionnaireJsonParse questionnaireParseResult =
        .questionnaireReply vagueQuestionnaire.message vagueQuestionnaire :=
  ⟨rfl, rfl⟩

/-! ## C7 — previous-commands prompt construction -/

/-- A context carrying one previously accepted command and no history. -/
def contextWithPrevious : ParseContext :=
  { previousCommands := [{ type := "navigate", value := some "https://example.com" }] }

/-- C7 (counterexample to the claim as stated): with a non-empty
`previousCommands`, the OpenAI adapter's message sequence contains no
assistant turn at all — it never reads `previousCommands` — contradicting
"for every provider adapter's parse". -/
theorem c7_counterexample :
    contextWithPrevious.previousCommands ≠ []
    ∧ (openAIMessages "add a click step" (some contextWithPrevious)).all
        (fun t => t.role != "assistant") = true :=
  ⟨by simp [contextWithPrevious], rfl⟩

/-- C7 (amended). When `context.previousCommands` is non-empty, the
AgentRouter adapter (and GLM, which builds the same sequence) inserts the
synthetic assistant turn serializing them between the system message and
the user turn; the OpenAI adapter (and OpenRouter) ignores
`previousCommands` entirely — its message sequence is identical to the one
built with no previous commands. -/
theorem c7_previous_commands_turn (stringify : List PlaywrightCommand → String)
    (input : String) (ctx : ParseContext) (h : ctx.previousCommands ≠ []) :
    agentRouterMessages stringify input (some ctx) =
      [⟨"system", buildSystemPromptText⟩,
       ⟨"assistant", "Previous commands executed:\n" ++ stringify ctx.previousCommands⟩,
       ⟨"user", input⟩]
    ∧ openAIMessages input (some ctx) =
        openAIMessages input (some { ctx with previousCommands := [] }) := by
  constructor
  · have hne : ctx.previousCommands.isEmpty = false := by
      simpa [List.isEmpty_iff] using h
    simp [agentRouterMessages, hne]
  · rfl

theorem c7_witness :
    agentRouterMessages (fun _ => "[serialized]") "add a click step" (some contextWithPrevious) =
      [⟨"system", buildSystemPromptText⟩,
       ⟨"assistant", "Previous commands executed:\n" ++ "[serialized]"⟩,
       ⟨"user", "add a click step"⟩]
    ∧ openAIMessages "add a click step" (some contextWithPrevious) =
        openAIMessages "add a click step"
          (some { contextWithPrevious with previousCommands := [] }) :=
  c7_previous_commands_turn (fun _ => "[serialized]") "add a click step" contextWithPrevious
    (by simp [contextWithPrevious])

/-! ## C5 — windower budget respect -/

theorem windowTokenSum_reverse (tok : String → Nat) (l : List ChatMsg) :
    windowTokenSum tok l.reverse = windowTokenSum tok l := by
  unfold windowTokenSum
  rw [List.map_reverse, List.sum_reverse]

/-- The invariant of the selection loop on the newest-first view: starting
from a running total `used` that still fits, the loop accepts a prefix
(of the newest-first list) that keeps the total within budget, and it
stops either at the end of the history or at a first rejected message
which would overflow the budget. -/
theorem selectNewest_spec (tok : String → Nat) (budget : Int) (rev : List ChatMsg) :
    ∀ used : Nat, (used : Int) ≤ budget →
    ∃ rest, rev = selectNewest tok budget used rev ++ rest
      ∧ ((used + windowTokenSum tok (selectNewest tok budget used rev) : Nat) : Int) ≤ budget
      ∧ (rest = [] ∨ ∃ m rest2, rest = m :: rest2 ∧
          budget < ((used + windowTokenSum tok (selectNewest tok budget used rev)
            + countMessageTokens tok m.content : Nat) : Int)) := by
  induction rev with
  | nil =>
    intro used h
    refine ⟨[], by simp [selectNewest], ?_, Or.inl rfl⟩
    simpa [selectNewest, windowTokenSum] using h
  | cons m older ih =>
    intro used h
    by_cases hc : ((used + countMessageTokens tok m.content : Nat) : Int) ≤ budget
    · obtain ⟨rest, heq, hbud, hnos⟩ := ih (used + countMessageTokens tok m.content) hc
      refine ⟨rest, ?_, ?_, ?_⟩
      · simp only [selectNewest, if_pos hc, List.cons_append]
        exact congrArg (List.cons m) heq
      · simp only [selectNewest, if_pos hc, windowTokenSum, List.map_cons, List.sum_cons]
        simp only [windowTokenSum] at hbud
        push_cast at hbud ⊢
        linarith
      · rcases hnos with rfl | ⟨m2, rest2, rfl, hlt⟩
        · exact Or.inl rfl
        · refine Or.inr ⟨m2, rest2, rfl, ?_⟩
          simp only [selectNewest, if_pos hc, windowTokenSum, List.map_cons, List.sum_cons]
          simp only [windowTokenSum] at hlt
          push_cast at hlt ⊢
          linarith
    · refine ⟨m :: older, ?_, ?_, Or.inr ⟨m, older, rfl, ?_⟩⟩
      · simp only [selectNewest, if_neg hc, List.nil_append]
      · simp only [selectNewest, if_neg hc, windowTokenSum, List.map_nil, List.sum_nil,
          Nat.add_zero]
        exact h
      · simp only [selectNewest, if_neg hc, windowTokenSum, List.map_nil, List.sum_nil,
          Nat.add_zero]
        exact lt_of_not_le hc

/-- C5. For every tokenizer and every budget ≥ 0, the windower's selection
is a suffix of the chronological session history (so the relative order is
the original one and truncation removes only the oldest messages), its
total token cost per the windower's own `countMessageTokens` never exceeds
the budget, and the greedy rule leaves no slack: either nothing was
dropped, or the newest dropped message would not have fit. -/
theorem c5_windower_budget (tok : String → Nat) (budget : Int) (msgs : List ChatMsg)
    (h : 0 ≤ budget) :
    ∃ dropped, msgs = dropped ++ getMessagesWithinBudget tok budget msgs
      ∧ ((windowTokenSum tok (getMessagesWithinBudget tok budget msgs) : Nat) : Int) ≤ budget
      ∧ (dropped = [] ∨ ∃ older m, dropped = older ++ [m] ∧
          budget < ((windowTokenSum tok (getMessagesWithinBudget tok budget msgs)
            + countMessageTokens tok m.content : Nat) : Int)) := by
  obtain ⟨rest, heq, hbud, hnos⟩ :=
    selectNewest_spec tok budget msgs.reverse 0 (by simpa using h)
  have hmsgs : msgs = rest.reverse ++ (selectNewest tok budget 0 msgs.reverse).reverse := by
    have := congrArg List.reverse heq
    rwa [List.reverse_reverse, List.reverse_append] at this
  refine ⟨rest.reverse, ?_, ?_, ?_⟩
  · simpa [getMessagesWithinBudget] using hmsgs
  · simpa [getMessagesWithinBudget, windowTokenSum_reverse] using hbud
  · rcases hnos with rfl | ⟨m, rest2, rfl, hlt⟩
    · exact Or.inl (by simp)
    · refine Or.inr ⟨rest2.reverse, m, by simp, ?_⟩
      simpa [getMessagesWithinBudget, windowTokenSum_reverse] using hlt

/-- A tokenizer and history for the witness: token counts are content
lengths; the budget 10 admits the newest message (cost 2 + 4) but not the
older one (cost 10 + 4). -/
def lengthTok : String → Nat := fun s => s.length

theorem c5_witness :
    (0 : Int) ≤ 10
    ∧ (∃ dropped, [ChatMsg.mk "user" "0123456789", ChatMsg.mk "assistant" "ab"] =
          dropped ++ getMessagesWithinBudget lengthTok 10
            [ChatMsg.mk "user" "0123456789", ChatMsg.mk "assistant" "ab"]
        ∧ ((windowTokenSum lengthTok (getMessagesWithinBudget lengthTok 10
            [ChatMsg.mk "user" "0123456789", ChatMsg.mk "assistant" "ab"]) : Nat) : Int) ≤ 10
        ∧ (dropped = [] ∨ ∃ older m, dropped = older ++ [m] ∧
            (10 : Int) < ((windowTokenSum lengthTok (getMessagesWithinBudget lengthTok 10
              [ChatMsg.mk "user" "0123456789", ChatMsg.mk "assistant" "ab"])
              + countMessageTokens lengthTok m.content : Nat) : Int))) :=
  ⟨by norm_num,
   c5_windower_budget lengthTok 10
     [ChatMsg.mk "user" "0123456789", ChatMsg.mk "assistant" "ab"] (by norm_num)⟩

/-! ## C6 — parser tolerance and failure

Supporting lemmas about the leftmost-match fence extraction. -/

theorem tripleBacktick_chars : tripleBacktick = ['\x60', '\x60', '\x60'] := by decide

theorem fenceClose_chars : fenceClose = '\n' :: tripleBacktick := by decide

theorem fenceJsonOpen_decomp : fenceJsonOpen = tripleBacktick ++ "json\n".data := by decide

theorem fencePlainOpen_decomp : fencePlainOpen = tripleBacktick ++ "\n".data := by decide

theorem listPrefix_append_self (pat rest : List Char) :
    listPrefix pat (pat ++ rest) = true := by
  induction pat with
  | nil => rfl
  | cons a as ih => simp [listPrefix, ih]

theorem splitFirst_self (pat rest : List Char) (hp : pat ≠ []) :
    splitFirst pat (pat ++ rest) = some ([], rest) := by
  cases pat with
  | nil => exact absurd rfl hp
  | cons p ps =>
    show splitFirst (p :: ps) (p :: (ps ++ rest)) = some ([], rest)
    rw [splitFirst, if_pos]
    · rw [show p :: (ps ++ rest) = (p :: ps) ++ rest from rfl, List.drop_left]
    · exact listPrefix_append_self (p :: ps) rest

theorem listPrefix_mono (p q : List Char) :
    ∀ s, listPrefix (p ++ q) s = true → listPrefix p s = true := by
  induction p with
  | nil => intro s _; rfl
  | cons a as ih =>
    intro s h
    cases s with
    | nil => exact absurd h (by simp [listPrefix])
    | cons b bs =>
      rw [List.cons_append, listPrefix, Bool.and_eq_true] at h
      rw [listPrefix, Bool.and_eq_true]
      exact ⟨h.1, ih bs h.2⟩

theorem containsSub_nil (pat : List Char) : containsSub pat [] = listPrefix pat [] := by
  unfold containsSub splitFirst
  cases h : listPrefix pat [] <;> simp [h]

theorem containsSub_cons (pat : List Char) (c : Char) (rest : List Char) :
    containsSub pat (c :: rest) = (listPrefix pat (c :: rest) || containsSub pat rest) := by
  unfold containsSub
  rw [splitFirst]
  by_cases h : listPrefix pat (c :: rest) = true
  · rw [if_pos h, h]
    simp
  · rw [if_neg h, Bool.eq_false_iff.mpr h, Bool.false_or]
    rcases hs : splitFirst pat rest with - | ⟨pre, post⟩ <;> simp [hs]

theorem containsSub_of_listPrefix (pat : List Char) (c : Char) (rest : List Char)
    (h : listPrefix pat (c :: rest) = true) : containsSub pat (c :: rest) = true := by
  rw [containsSub_cons, h, Bool.true_or]

theorem containsSub_mono_false (p q s : List Char) (h : containsSub p s = false) :
    containsSub (p ++ q) s = false := by
  induction s with
  | nil =>
    rw [containsSub_nil] at h ⊢
    cases hl : listPrefix (p ++ q) []
    · rfl
    · exact absurd (listPrefix_mono p q [] hl) (by rw [h]; simp)
  | cons c rest ih =>
    rw [containsSub_cons] at h ⊢
    rw [Bool.or_eq_false_iff] at h
    rw [Bool.or_eq_false_iff]
    refine ⟨?_, ih h.2⟩
    cases hl : listPrefix (p ++ q) (c :: rest)
    · rfl
    · exact absurd (listPrefix_mono p q _ hl) (by rw [h.1]; simp)

/-- The junction argument: when `l` holds no triple backtick, appending the
fence closer creates exactly one closer occurrence, at the very end — no
occurrence can span the junction because every character of the closer
past its first is a backtick. So the lazy capture group is all of `l`. -/
theorem splitFirst_fenceClose (l : List Char) (h : containsSub tripleBacktick l = false) :
    splitFirst fenceClose (l ++ fenceClose) = some (l, []) := by
  induction l with
  | nil => simpa using splitFirst_self fenceClose [] (by decide)
  | cons c l2 ih =>
    have h2 : containsSub tripleBacktick l2 = false := by
      rw [containsSub_cons, Bool.or_eq_false_iff] at h
      exact h.2
    have hpfx : ¬ listPrefix fenceClose (c :: (l2 ++ fenceClose)) = true := by
      intro hx
      rw [fenceClose_chars, listPrefix, Bool.and_eq_true] at hx
      obtain ⟨-, hbb⟩ := hx
      match l2, h2, hbb with
      | [], h2, hbb =>
        rw [List.nil_append] at hbb
        exact absurd hbb (by decide)
      | [a], h2, hbb =>
        simp only [List.cons_append, List.nil_append] at hbb
        rw [tripleBacktick_chars, listPrefix, Bool.and_eq_true] at hbb
        exact absurd hbb.2 (by decide)
      | [a, b], h2, hbb =>
        simp only [List.cons_append, List.nil_append] at hbb
        rw [tripleBacktick_chars, listPrefix, Bool.and_eq_true, listPrefix,
          Bool.and_eq_true] at hbb
        exact absurd hbb.2.2 (by decide)
      | a :: b :: d :: l3, h2, hbb =>
        simp only [List.cons_append] at hbb
        rw [tripleBacktick_chars, listPrefix, Bool.and_eq_true, listPrefix, Bool.and_eq_true,
          listPrefix, Bool.and_eq_true] at hbb
        obtain ⟨ha, hb, hd, -⟩ := hbb
        have hocc : listPrefix tripleBacktick (a :: b :: d :: l3) = true := by
          rw [tripleBacktick_chars]
          simp [listPrefix, ha, hb, hd]
        exact absurd (containsSub_of_listPrefix _ _ _ hocc) (by rw [h2]; simp)
    rw [show (c :: l2) ++ fenceClose = c :: (l2 ++ fenceClose) from rfl, splitFirst,
      if_neg hpfx, ih h2]

theorem fenceCapture_none (opener s : List Char) (h : containsSub opener s = false) :
    fenceCapture opener s = none := by
  unfold fenceCapture
  unfold containsSub at h
  rcases hs : splitFirst opener s with - | ⟨pre, post⟩
  · rfl
  · rw [hs] at h
    simp at h

theorem jsMatchFence_none_of_no_backtick (s : List Char)
    (h : containsSub tripleBacktick s = false) : jsMatchFence s = none := by
  unfold jsMatchFence
  rw [fenceCapture_none _ _ (by rw [fenceJsonOpen_decomp]; exact containsSub_mono_false _ _ _ h),
    fenceCapture_none _ _ (by rw [fencePlainOpen_decomp]; exact containsSub_mono_false _ _ _ h)]

theorem fenceCapture_wrap (l : List Char) (h : containsSub tripleBacktick l = false) :
    fenceCapture fenceJsonOpen (fenceJsonOpen ++ (l ++ fenceClose)) = some l := by
  unfold fenceCapture
  rw [splitFirst_self _ _ (by decide)]
  show (match splitFirst fenceClose (l ++ fenceClose) with
    | some (inner, _) => some inner
    | none => none) = some l
  rw [splitFirst_fenceClose l h]

theorem jsMatchFence_wrap (J : String) (h : containsSub tripleBacktick J.data = false) :
    jsMatchFence (wrapJsonBlock J).data = some J.data := by
  have hdata : (wrapJsonBlock J).data = fenceJsonOpen ++ (J.data ++ fenceClose) := by
    show fenceJsonOpen ++ J.data ++ fenceClose = _
    rw [List.append_assoc]
  unfold jsMatchFence
  rw [hdata, fenceCapture_wrap J.data h]

/-- Raw text that is not recoverable JSON by either extraction strategy
(first match wins, as in the source): when strategy 1 finds a fenced
block, `JSON.parse` of its interior throws (strategy 2 is never tried —
the throw is caught by `parseResponse`'s catch and rethrown); when no
fence is found, `JSON.parse` of the whole text throws. -/
def noRecoverableJson (jsonParse : String → Option LLMJson) (raw : String) : Prop :=
  (∀ inner, jsMatchFence raw.data = some inner → jsonParse (String.mk inner) = none)
  ∧ (jsMatchFence raw.data = none → jsonParse raw = none)

/-- C6. (a) A model response wrapped in a ```json fenced code block parses
to the same commands, confidence and questionnaire as the identical JSON
text given unwrapped, for every behaviour of the JSON library (the
hypothesis: the JSON text itself contains no triple backtick, so the
wrapping adds the only fence). (b) Raw text that is not recoverable JSON
by either extraction strategy — no fence and the whole text unparseable,
or a fenced block whose extracted interior is unparseable — yields a
parse error carrying the raw text, never a successful empty result. -/
theorem c6_parser_tolerance_and_failure (jsonParse : String → Option LLMJson) (J bad : String)
    (hJ : containsSub tripleBacktick J.data = false)
    (hbad : noRecoverableJson jsonParse bad) :
    sameParseOutcome (parseResponse jsonParse (wrapJsonBlock J)) (parseResponse jsonParse J)
    ∧ parseResponse jsonParse bad = .error ⟨bad⟩ := by
  constructor
  · unfold parseResponse
    rw [jsMatchFence_wrap J hJ, jsMatchFence_none_of_no_backtick J.data hJ]
    show sameParseOutcome
      (match jsonParse J with
       | some parsed => Except.ok (buildParseResult parsed (wrapJsonBlock J))
       | none => Except.error ⟨wrapJsonBlock J⟩)
      (match jsonParse J with
       | some parsed => Except.ok (buildParseResult parsed J)
       | none => Except.error ⟨J⟩)
    rcases hp : jsonParse J with - | p
    · simp [sameParseOutcome]
    · simp [sameParseOutcome, buildParseResult]
  · unfold parseResponse
    rcases hm : jsMatchFence bad.data with - | inner
    · rw [hbad.2 hm]
    · show (match jsonParse (String.mk inner) with
        | some parsed => Except.ok (buildParseResult parsed bad)
        | none => Except.error (ResponseParseError.mk bad)) =
        Except.error (ResponseParseError.mk bad)
      rw [hbad.1 inner hm]

/-- The JSON library behaviour for the witness: only the exact payload
parses; everything else throws. -/
def witnessJsonParse : String → Option LLMJson := fun s =>
  if s = "the-json-payload" then
    some { commands := some [{ type := "press", value := some "Enter" }],
           confidence := some 0.9 }
  else none

/-- The witness's failing input: a complete ```json fenced block whose
interior is not parseable JSON — strategy 1 extracts it, the parse of the
interior throws, and the request fails with the raw text attached. -/
theorem c6_witness :
    sameParseOutcome (parseResponse witnessJsonParse (wrapJsonBlock "the-json-payload"))
      (parseResponse witnessJsonParse "the-json-payload")
    ∧ parseResponse witnessJsonParse (wrapJsonBlock "broken json here") =
        .error ⟨wrapJsonBlock "broken json here"⟩ :=
  c6_parser_tolerance_and_failure witnessJsonParse "the-json-payload"
    (wrapJsonBlock "broken json here") (by decide)
    (by
      refine ⟨fun inner hm => ?_, fun hnone => ?_⟩
      · rw [show jsMatchFence (wrapJsonBlock "broken json here").data =
            some "broken json here".data from by decide] at hm
        cases hm
        decide
      · rw [show jsMatchFence (wrapJsonBlock "broken json here").data =
            some "broken json here".data from by decide] at hnone
        exact Option.noConfusion hnone)
